import Mathlib

/-!
Verification of the QC / consistency-checking core of `bio_hansel/utils.py`.

The embedding below translates the Python functions of that module into Lean:

* `compare_subtypes`      — element-wise comparison of two subtype paths over
  their overlapping prefix (the Python `for x, y in zip(a, b)` loop).
* `find_inconsistent_subtypes` — pairwise disagreement detection, flattening
  of disagreeing paths to dot-joined strings, frequency counting with
  `collections.Counter`, and ranking via `Counter.most_common()`.
* `check_is_confident_subtype`, `check_min_tiles_reached` — threshold
  predicates over a `Subtype` record.  Python float arithmetic
  (`expected * 0.01`, `expected * 0.05`) is modelled exactly over `ℚ`.
* `translate_mixed_subtype_results`, `translate_min_tiles_results` — fixed
  message translation.

Subtype path labels are modelled as `Int` (the Python code treats them as
opaque values compared by equality and stringified with `str`).
-/

namespace BioHansel

/-- `compare_subtypes(a, b)` from `utils.py` (lines 75-79): walks
`zip(a, b)` and returns `False` at the first positional mismatch, `True`
otherwise.  Zipping stops at the shorter list, so positions beyond the
overlap are never compared. -/
def compare_subtypes : List Int → List Int → Bool
  | x :: xs, y :: ys => if x = y then compare_subtypes xs ys else false
  | _, _ => true

/-- Flattening of a subtype path to its canonical string:
`'.'.join([str(x) for x in a])` inside `find_inconsistent_subtypes`. -/
def flatten_subtype (a : List Int) : String :=
  String.intercalate "." (a.map (fun x => toString x))

/-- The pair-collection loop of `find_inconsistent_subtypes` (lines 85-91):
all pairs `(subtypes[i], subtypes[j])` with `i < j` for which
`compare_subtypes` returns `False`, in enumeration order (outer index `i`
ascending, inner index `j` ascending). -/
def inconsistent_pairs : List (List Int) → List (List Int × List Int)
  | [] => []
  | a :: rest =>
      (rest.filter (fun b => !compare_subtypes a b)).map (fun b => (a, b)) ++
        inconsistent_pairs rest

/-- The flattening loop of `find_inconsistent_subtypes` (lines 92-96):
`l += [astr, bstr]` for each recorded pair, in order. -/
def pair_strings : List (List Int × List Int) → List String
  | [] => []
  | p :: rest => flatten_subtype p.1 :: flatten_subtype p.2 :: pair_strings rest

/-- The key order of `collections.Counter(l)`: distinct elements of `l` in
first-seen order (Python dicts preserve insertion order).  `seen` accumulates
the keys already emitted. -/
def dedup_first_aux (seen : List String) : List String → List String
  | [] => []
  | a :: rest =>
      if a ∈ seen then dedup_first_aux seen rest
      else a :: dedup_first_aux (a :: seen) rest

/-- Distinct elements of `l` in first-seen order. -/
def dedup_first (l : List String) : List String :=
  dedup_first_aux [] l

/-- `Counter(l).items()`: each distinct string of `l` (in first-seen order)
paired with its number of occurrences in `l`. -/
def counter_items (l : List String) : List (String × Nat) :=
  (dedup_first l).map (fun s => (s, l.count s))

/-- One insertion step of a stable descending-by-count sort: the new
element goes before the first element of strictly smaller count, hence after
earlier elements of equal count. -/
def insert_desc (p : String × Nat) : List (String × Nat) → List (String × Nat)
  | [] => [p]
  | q :: rest => if p.2 < q.2 then q :: insert_desc p rest else p :: q :: rest

/-- `Counter.most_common()`: the items sorted by descending count, ties kept
in first-encountered order.  CPython implements this as a stable sort on the
insertion-ordered items; stable sorts are unique, so this stable insertion
sort computes the same list. -/
def most_common : List (String × Nat) → List (String × Nat)
  | [] => []
  | p :: rest => insert_desc p (most_common rest)

/-- The output loop of `find_inconsistent_subtypes` (lines 99-103): append
each ranked string while its frequency is `>= 1`, `break` otherwise. -/
def take_freq_ge1 : List (String × Nat) → List String
  | [] => []
  | p :: rest => if 1 ≤ p.2 then p.1 :: take_freq_ge1 rest else []

/-- `find_inconsistent_subtypes(subtypes)` from `utils.py` (lines 82-104). -/
def find_inconsistent_subtypes (subtypes : List (List Int)) : List String :=
  take_freq_ge1 (most_common (counter_items (pair_strings (inconsistent_pairs subtypes))))

/-- The fields of the `Subtype` record consulted by the two QC predicates.
`n_tiles_matching_all_expected` is a nullable string such as `"100;100"`;
`are_subtypes_consistent` and `inconsistent_subtypes` are nullable. -/
structure Subtype where
  n_tiles_matching_all : Int
  n_tiles_matching_all_expected : Option String
  are_subtypes_consistent : Option Bool
  inconsistent_subtypes : Option Int
deriving DecidableEq

/-- The error signalled when `n_tiles_matching_all_expected` is missing or
its text before the first semicolon is not parseable as an integer
(Python raises from `int(...)`; the spec names this `FormatError`). -/
inductive FormatError where
  | formatError
deriving DecidableEq

/-- The first field of `s.split(";")`: the characters up to (excluding) the
first semicolon, or all of them when there is no semicolon. -/
def take_until_semi : List Char → List Char
  | [] => []
  | c :: cs => if c = ';' then [] else c :: take_until_semi cs

/-- Strip leading and trailing whitespace, as Python `int` does before
parsing. -/
def strip_ws (l : List Char) : List Char :=
  ((l.dropWhile (fun c => c.isWhitespace)).reverse.dropWhile
    (fun c => c.isWhitespace)).reverse

/-- Accumulate a run of decimal digits; `none` as soon as a non-digit
appears. -/
def parse_nat_aux : List Char → Nat → Option Nat
  | [], acc => some acc
  | c :: cs, acc =>
      if c.isDigit then parse_nat_aux cs (acc * 10 + (c.toNat - 48)) else none

/-- Python `int(...)` on a stripped character run: an optional sign followed
by at least one digit; anything else fails (Python raises `ValueError`). -/
def py_int_chars : List Char → Option Int
  | [] => none
  | c :: cs =>
      if c = '-' then
        match cs with
        | [] => none
        | _ => (parse_nat_aux cs 0).map (fun n => -(n : Int))
      else if c = '+' then
        match cs with
        | [] => none
        | _ => (parse_nat_aux cs 0).map (fun n => (n : Int))
      else (parse_nat_aux (c :: cs) 0).map (fun n => (n : Int))

/-- `int(st.n_tiles_matching_all_expected.split(";")[0])`: `none` when the
field is missing or its text before the first semicolon does not parse as an
integer. -/
def parse_expected (field : Option String) : Option Int :=
  match field with
  | none => none
  | some s => py_int_chars (strip_ws (take_until_semi s.data))

/-- `check_is_confident_subtype(st)` from `utils.py` (lines 107-118),
with the parse failure made explicit as `Except.error`. -/
def check_is_confident_subtype (st : Subtype) : Except FormatError Bool :=
  match parse_expected st.n_tiles_matching_all_expected with
  | none => Except.error FormatError.formatError
  | some expected_tiles_matching =>
      Except.ok
        (if (st.are_subtypes_consistent == some false) ||
            (match st.inconsistent_subtypes with
             | some k => decide (0 < k)
             | none => false) then
          false
        else if ((expected_tiles_matching : ℚ) * 0.01 + (expected_tiles_matching : ℚ)) ≤
            (st.n_tiles_matching_all : ℚ) then
          false
        else
          true)

/-- `check_min_tiles_reached(st)` from `utils.py` (lines 121-128),
with the parse failure made explicit as `Except.error`. -/
def check_min_tiles_reached (st : Subtype) : Except FormatError Bool :=
  match parse_expected st.n_tiles_matching_all_expected with
  | none => Except.error FormatError.formatError
  | some expected_tiles_matching =>
      if (st.n_tiles_matching_all : ℚ) ≤
          (expected_tiles_matching : ℚ) - (expected_tiles_matching : ℚ) * 0.05 then
        Except.ok false
      else
        Except.ok true

/-- `translate_mixed_subtype_results(result)` from `utils.py` (lines 131-137). -/
def translate_mixed_subtype_results (result : Bool) : String :=
  if result = true then "ERROR: MIXED SUBTYPES" else "Subtypes not mixed"

/-- `translate_min_tiles_results(result)` from `utils.py` (lines 140-146). -/
def translate_min_tiles_results (result : Bool) : String :=
  if result = true then "ERROR: Insufficient number of SNV targets found!"
  else "Expected number of tiles reached"

end BioHansel

namespace BioHansel

/-- Characterisation of `compare_subtypes`: it returns `true` exactly when
every position of the overlapping prefix agrees. -/
theorem compare_subtypes_eq_true_iff (a b : List Int) :
    compare_subtypes a b = true ↔
      ∀ i (h1 : i < a.length) (h2 : i < b.length), a[i] = b[i] := by
  induction a generalizing b with
  | nil =>
    cases b <;> simp [compare_subtypes]
  | cons x xs ih =>
    cases b with
    | nil => simp [compare_subtypes]
    | cons y ys =>
      simp only [compare_subtypes]
      by_cases hxy : x = y
      · subst hxy
        rw [if_pos rfl, ih ys]
        constructor
        · intro h i h1 h2
          cases i with
          | zero => simp
          | succ n =>
            simp only [List.getElem_cons_succ]
            exact h n (Nat.lt_of_succ_lt_succ h1) (Nat.lt_of_succ_lt_succ h2)
        · intro h i h1 h2
          have := h (i + 1) (Nat.succ_lt_succ h1) (Nat.succ_lt_succ h2)
          simpa using this
      · rw [if_neg hxy]
        constructor
        · intro h; exact absurd h (by simp)
        · intro h
          have h0 := h 0 (Nat.succ_pos _) (Nat.succ_pos _)
          simp only [List.getElem_cons_zero] at h0
          exact absurd h0 hxy

end BioHansel

namespace BioHansel

/-- Claim C4: `compare_subtypes` compares only the overlapping prefix of the
two paths (positions beyond the shorter path are never compared), returning
`false` when some overlapping position differs and `true` when every
overlapping position matches even for different lengths; in particular
`[1,2,3]` vs `[1,2]` is `true` and `[1,2,3]` vs `[1,2,4]` is `false`. -/
theorem C4_overlap_only_comparison :
    (∀ a b : List Int,
      compare_subtypes a b = true ↔
        ∀ i (h1 : i < a.length) (h2 : i < b.length), a[i] = b[i]) ∧
    compare_subtypes [1, 2, 3] [1, 2] = true ∧
    compare_subtypes [1, 2, 3] [1, 2, 4] = false :=
  ⟨compare_subtypes_eq_true_iff, by decide, by decide⟩

/-- Witness for C4 at a concrete input. -/
theorem C4_overlap_only_comparison_witness :
    compare_subtypes [5, 7] [5, 7] = true :=
  (C4_overlap_only_comparison.1 [5, 7] [5, 7]).mpr (by decide)

/-- Claim C8: the path comparator is reflexive on non-empty paths and
symmetric. -/
theorem C8_refl_symm :
    (∀ a : List Int, a ≠ [] → compare_subtypes a a = true) ∧
    (∀ a b : List Int, compare_subtypes a b = compare_subtypes b a) := by
  constructor
  · intro a ha
    clear ha
    induction a with
    | nil => rfl
    | cons x xs ih => simpa [compare_subtypes] using ih
  · intro a
    induction a with
    | nil => intro b; cases b <;> rfl
    | cons x xs ih =>
      intro b
      cases b with
      | nil => rfl
      | cons y ys =>
        simp only [compare_subtypes]
        by_cases hxy : x = y
        · subst hxy
          rw [if_pos rfl, if_pos rfl]
          exact ih ys
        · rw [if_neg hxy, if_neg (fun h => hxy h.symm)]

/-- Witness for C8 at concrete inputs. -/
theorem C8_refl_symm_witness :
    compare_subtypes [1, 2] [1, 2] = true ∧
    compare_subtypes [1, 2] [1, 3] = compare_subtypes [1, 3] [1, 2] :=
  ⟨C8_refl_symm.1 [1, 2] (by decide), C8_refl_symm.2 [1, 2] [1, 3]⟩

/-- Claim C10: the empty path compares equal to every path in both argument
orders, because zipping over the empty overlap succeeds vacuously. -/
theorem C10_empty_path_equal :
    ∀ b : List Int, compare_subtypes [] b = true ∧ compare_subtypes b [] = true := by
  intro b
  cases b <;> exact ⟨rfl, rfl⟩

/-- Claim C9: the two status translators produce exactly the four fixed
message strings. -/
theorem C9_status_messages :
    translate_mixed_subtype_results true = "ERROR: MIXED SUBTYPES" ∧
    translate_mixed_subtype_results false = "Subtypes not mixed" ∧
    translate_min_tiles_results true = "ERROR: Insufficient number of SNV targets found!" ∧
    translate_min_tiles_results false = "Expected number of tiles reached" :=
  ⟨rfl, rfl, rfl, rfl⟩

end BioHansel

namespace BioHansel

/-- The boolean inconsistency guard of `check_is_confident_subtype` holds
exactly when the record is flagged inconsistent or carries a positive
inconsistency count. -/
theorem confident_guard_iff (st : Subtype) :
    (((st.are_subtypes_consistent == some false) ||
       (match st.inconsistent_subtypes with
        | some k => decide (0 < k)
        | none => false)) = true) ↔
      (st.are_subtypes_consistent = some false ∨
        ∃ k, st.inconsistent_subtypes = some k ∧ 0 < k) := by
  rcases hk : st.inconsistent_subtypes with _ | k <;>
    simp [hk, beq_iff_eq]

/-- Claim C1: when `n_tiles_matching_all_expected` parses to `expected`
before the first semicolon, `check_is_confident_subtype` returns `false` if
the record is flagged inconsistent or has a positive inconsistency count;
otherwise it returns `false` exactly when
`n_tiles_matching_all >= expected + 0.01 * expected`, and `true` otherwise. -/
theorem C1_is_confident_policy (st : Subtype) (expected : Int)
    (h : parse_expected st.n_tiles_matching_all_expected = some expected) :
    ((st.are_subtypes_consistent = some false ∨
        ∃ k, st.inconsistent_subtypes = some k ∧ 0 < k) →
      check_is_confident_subtype st = Except.ok false) ∧
    (¬(st.are_subtypes_consistent = some false ∨
        ∃ k, st.inconsistent_subtypes = some k ∧ 0 < k) →
      ((check_is_confident_subtype st = Except.ok false ↔
          (expected : ℚ) + 0.01 * (expected : ℚ) ≤ (st.n_tiles_matching_all : ℚ)) ∧
       (check_is_confident_subtype st = Except.ok true ↔
          (st.n_tiles_matching_all : ℚ) < (expected : ℚ) + 0.01 * (expected : ℚ)))) := by
  constructor
  · intro hcond
    simp only [check_is_confident_subtype, h]
    rw [if_pos ((confident_guard_iff st).mpr hcond)]
  · intro hcond
    have hg : ¬ (((st.are_subtypes_consistent == some false) ||
        (match st.inconsistent_subtypes with
         | some k => decide (0 < k)
         | none => false)) = true) := fun hh => hcond ((confident_guard_iff st).mp hh)
    simp only [check_is_confident_subtype, h]
    rw [if_neg hg]
    by_cases hc : ((expected : ℚ) * 0.01 + (expected : ℚ)) ≤ (st.n_tiles_matching_all : ℚ)
    · rw [if_pos hc]
      refine ⟨⟨fun _ => by linarith, fun _ => rfl⟩, ?_, ?_⟩
      · intro hh; exact absurd hh (by simp)
      · intro hh; exact absurd hh (not_lt.mpr (by linarith))
    · rw [if_neg hc]
      push_neg at hc
      refine ⟨⟨?_, ?_⟩, fun _ => by linarith, fun _ => rfl⟩
      · intro hh; exact absurd hh (by simp)
      · intro hh; exact absurd hh (not_le.mpr (by linarith))

/-- Witness for C1: a record flagged inconsistent is reported not confident,
and a consistent record with a 2% excess of matches is reported not
confident. -/
theorem C1_is_confident_policy_witness :
    check_is_confident_subtype ⟨100, some "100;100", some false, none⟩ =
      Except.ok false ∧
    check_is_confident_subtype ⟨102, some "100;100", some true, none⟩ =
      Except.ok false :=
  ⟨(C1_is_confident_policy ⟨100, some "100;100", some false, none⟩ 100 (by decide)).1
      (Or.inl rfl),
   ((C1_is_confident_policy ⟨102, some "100;100", some true, none⟩ 100 (by decide)).2
      (by simp)).1.mpr (by norm_num)⟩

/-- Claim C2: when `n_tiles_matching_all_expected` parses to `expected`,
`check_min_tiles_reached` returns `false` exactly when
`n_tiles_matching_all <= expected - 0.05 * expected`, and `true`
otherwise. -/
theorem C2_min_tiles_threshold (st : Subtype) (expected : Int)
    (h : parse_expected st.n_tiles_matching_all_expected = some expected) :
    (check_min_tiles_reached st = Except.ok false ↔
       (st.n_tiles_matching_all : ℚ) ≤ (expected : ℚ) - 0.05 * (expected : ℚ)) ∧
    (check_min_tiles_reached st = Except.ok true ↔
       ¬ ((st.n_tiles_matching_all : ℚ) ≤ (expected : ℚ) - 0.05 * (expected : ℚ))) := by
  simp only [check_min_tiles_reached, h]
  by_cases hc : (st.n_tiles_matching_all : ℚ) ≤
      (expected : ℚ) - (expected : ℚ) * 0.05
  · rw [if_pos hc]
    refine ⟨⟨fun _ => by linarith, fun _ => rfl⟩, ?_, ?_⟩
    · intro hh; exact absurd hh (by simp)
    · intro hh
      exact absurd (show (st.n_tiles_matching_all : ℚ) ≤
        (expected : ℚ) - 0.05 * (expected : ℚ) by linarith) hh
  · rw [if_neg hc]
    push_neg at hc
    refine ⟨⟨?_, ?_⟩, fun _ => not_le.mpr (by linarith), fun _ => rfl⟩
    · intro hh; exact absurd hh (by simp)
    · intro hh; exact absurd hh (not_le.mpr (by linarith))

/-- Witness for C2 at the inclusive 5% deficit boundary: expected 100 with
95 observed is insufficient, with 96 observed it is sufficient. -/
theorem C2_min_tiles_threshold_witness :
    check_min_tiles_reached ⟨95, some "100;100", some true, none⟩ =
      Except.ok false ∧
    check_min_tiles_reached ⟨96, some "100;100", some true, none⟩ =
      Except.ok true :=
  ⟨(C2_min_tiles_threshold ⟨95, some "100;100", some true, none⟩ 100 (by decide)).1.mpr
      (by norm_num),
   (C2_min_tiles_threshold ⟨96, some "100;100", some true, none⟩ 100 (by decide)).2.mpr
      (by norm_num)⟩

/-- Claim C7: when `n_tiles_matching_all_expected` is missing or its text
before the first semicolon is not parseable as an integer, both QC
predicates fail with `FormatError` instead of returning a boolean. -/
theorem C7_format_error (st : Subtype)
    (h : parse_expected st.n_tiles_matching_all_expected = none) :
    check_is_confident_subtype st = Except.error FormatError.formatError ∧
    check_min_tiles_reached st = Except.error FormatError.formatError := by
  constructor <;> simp only [check_is_confident_subtype, check_min_tiles_reached, h]

/-- Witness for C7 on the literal malformed field `"abc"`. -/
theorem C7_format_error_witness :
    check_is_confident_subtype ⟨10, some "abc", some true, none⟩ =
      Except.error FormatError.formatError ∧
    check_min_tiles_reached ⟨10, some "abc", some true, none⟩ =
      Except.error FormatError.formatError :=
  C7_format_error ⟨10, some "abc", some true, none⟩ (by decide)

end BioHansel

namespace BioHansel

/-- Membership in the deduplicated key list: an element appears iff it is in
the input and not among the already-seen keys. -/
theorem mem_dedup_first_aux (s : String) (l : List String) :
    ∀ seen : List String, s ∈ dedup_first_aux seen l ↔ s ∈ l ∧ s ∉ seen := by
  induction l with
  | nil => intro seen; simp [dedup_first_aux]
  | cons a rest ih =>
    intro seen
    simp only [dedup_first_aux]
    by_cases ha : a ∈ seen
    · rw [if_pos ha, ih seen]
      constructor
      · rintro ⟨hs, hns⟩; exact ⟨List.mem_cons_of_mem a hs, hns⟩
      · rintro ⟨hs, hns⟩
        rcases List.mem_cons.mp hs with hsa | hsr
        · exact absurd (hsa ▸ ha) hns
        · exact ⟨hsr, hns⟩
    · rw [if_neg ha]
      constructor
      · intro hmem
        rcases List.mem_cons.mp hmem with hsa | hsr
        · exact ⟨hsa ▸ List.mem_cons_self a rest, hsa ▸ ha⟩
        · have := (ih (a :: seen)).mp hsr
          refine ⟨List.mem_cons_of_mem a this.1, fun hn => this.2 (List.mem_cons_of_mem a hn)⟩
      · rintro ⟨hs, hns⟩
        by_cases hsa : s = a
        · exact hsa ▸ List.mem_cons_self a _
        · rcases List.mem_cons.mp hs with h1 | h2
          · exact absurd h1 hsa
          · exact List.mem_cons_of_mem a
              ((ih (a :: seen)).mpr ⟨h2, fun hn => by
                rcases List.mem_cons.mp hn with h3 | h4
                · exact hsa h3
                · exact hns h4⟩)

/-- The deduplicated key list has no duplicates. -/
theorem nodup_dedup_first_aux (l : List String) :
    ∀ seen : List String, (dedup_first_aux seen l).Nodup := by
  induction l with
  | nil => intro seen; simp [dedup_first_aux]
  | cons a rest ih =>
    intro seen
    simp only [dedup_first_aux]
    by_cases ha : a ∈ seen
    · rw [if_pos ha]; exact ih seen
    · rw [if_neg ha]
      refine List.nodup_cons.mpr ⟨fun hmem => ?_, ih (a :: seen)⟩
      exact ((mem_dedup_first_aux a rest (a :: seen)).mp hmem).2
        (List.mem_cons_self a seen)

/-- Inserting an element permutes consing it. -/
theorem insert_desc_perm (p : String × Nat) (l : List (String × Nat)) :
    (insert_desc p l).Perm (p :: l) := by
  induction l with
  | nil => exact List.Perm.refl _
  | cons q rest ih =>
    simp only [insert_desc]
    by_cases hc : p.2 < q.2
    · rw [if_pos hc]
      exact ((ih.cons q).trans (List.Perm.swap p q rest))
    · rw [if_neg hc]

/-- `most_common` permutes its input. -/
theorem most_common_perm (l : List (String × Nat)) :
    (most_common l).Perm l := by
  induction l with
  | nil => exact List.Perm.refl _
  | cons p rest ih =>
    exact (insert_desc_perm p (most_common rest)).trans (ih.cons p)

/-- Insertion preserves the descending-count ordering. -/
theorem pairwise_insert_desc (p : String × Nat) (l : List (String × Nat))
    (h : l.Pairwise (fun x y => y.2 ≤ x.2)) :
    (insert_desc p l).Pairwise (fun x y => y.2 ≤ x.2) := by
  induction l with
  | nil => simp [insert_desc]
  | cons q rest ih =>
    rw [List.pairwise_cons] at h
    simp only [insert_desc]
    by_cases hc : p.2 < q.2
    · rw [if_pos hc]
      refine List.pairwise_cons.mpr ⟨fun x hx => ?_, ih h.2⟩
      rcases List.mem_cons.mp ((insert_desc_perm p rest).mem_iff.mp hx) with hxp | hxr
      · exact hxp ▸ Nat.le_of_lt hc
      · exact h.1 x hxr
    · rw [if_neg hc]
      push_neg at hc
      refine List.pairwise_cons.mpr ⟨fun x hx => ?_, List.pairwise_cons.mpr h⟩
      rcases List.mem_cons.mp hx with hxq | hxr
      · exact hxq ▸ hc
      · exact Nat.le_trans (h.1 x hxr) hc

/-- The ranked list is ordered by descending count. -/
theorem pairwise_most_common (l : List (String × Nat)) :
    (most_common l).Pairwise (fun x y => y.2 ≤ x.2) := by
  induction l with
  | nil => simp [most_common]
  | cons p rest ih => exact pairwise_insert_desc p (most_common rest) ih

/-- When every ranked frequency is at least one, the output loop of
`find_inconsistent_subtypes` keeps every ranked string. -/
theorem take_freq_ge1_eq_map (l : List (String × Nat))
    (h : ∀ p ∈ l, 1 ≤ p.2) :
    take_freq_ge1 l = l.map Prod.fst := by
  induction l with
  | nil => rfl
  | cons p rest ih =>
    simp only [take_freq_ge1, List.map_cons]
    rw [if_pos (h p (List.mem_cons_self p rest))]
    rw [ih (fun q hq => h q (List.mem_cons_of_mem p hq))]

/-- Every item of `Counter(l).items()` pairs a string of `l` with its
occurrence count in `l`. -/
theorem mem_counter_items (l : List String) (p : String × Nat)
    (hp : p ∈ counter_items l) :
    p.1 ∈ l ∧ p.2 = l.count p.1 := by
  rcases List.mem_map.mp hp with ⟨s, hs, hmap⟩
  have h1 : s ∈ l := ((mem_dedup_first_aux s l []).mp hs).1
  cases hmap
  exact ⟨h1, rfl⟩

end BioHansel

namespace BioHansel

/-- Claim C3: `find_inconsistent_subtypes` returns the distinct flattened
strings of the paths occurring in at least one disagreeing pair, ordered by
descending occurrence count over all recorded pair appearances, and the
`count >= 1` guard never excludes any counted string (the output is exactly
the full ranked key list). -/
theorem C3_ranking (subtypes : List (List Int)) :
    (∀ s, s ∈ find_inconsistent_subtypes subtypes ↔
       s ∈ pair_strings (inconsistent_pairs subtypes)) ∧
    (find_inconsistent_subtypes subtypes).Nodup ∧
    (find_inconsistent_subtypes subtypes).Pairwise
      (fun s t => (pair_strings (inconsistent_pairs subtypes)).count t ≤
        (pair_strings (inconsistent_pairs subtypes)).count s) ∧
    find_inconsistent_subtypes subtypes =
      (most_common (counter_items (pair_strings (inconsistent_pairs subtypes)))).map
        Prod.fst := by
  have hmemitems : ∀ p ∈ most_common (counter_items (pair_strings (inconsistent_pairs subtypes))),
      p.1 ∈ pair_strings (inconsistent_pairs subtypes) ∧
      p.2 = (pair_strings (inconsistent_pairs subtypes)).count p.1 := by
    intro p hp
    exact mem_counter_items _ p
      ((most_common_perm (counter_items _)).mem_iff.mp hp)
  have hge1 : ∀ p ∈ most_common (counter_items (pair_strings (inconsistent_pairs subtypes))),
      1 ≤ p.2 := by
    intro p hp
    have h1 := hmemitems p hp
    rw [h1.2]
    exact List.count_pos_iff.mpr h1.1
  have hout : find_inconsistent_subtypes subtypes =
      (most_common (counter_items (pair_strings (inconsistent_pairs subtypes)))).map
        Prod.fst := by
    rw [find_inconsistent_subtypes]
    exact take_freq_ge1_eq_map _ hge1
  refine ⟨?_, ?_, ?_, hout⟩
  · intro s
    rw [hout]
    constructor
    · intro hmem
      rcases List.mem_map.mp hmem with ⟨p, hp, hps⟩
      exact hps ▸ (hmemitems p hp).1
    · intro hs
      have hd : s ∈ dedup_first (pair_strings (inconsistent_pairs subtypes)) :=
        (mem_dedup_first_aux s _ []).mpr ⟨hs, by simp⟩
      have hitems : (s, (pair_strings (inconsistent_pairs subtypes)).count s) ∈
          counter_items (pair_strings (inconsistent_pairs subtypes)) :=
        List.mem_map.mpr ⟨s, hd, rfl⟩
      exact List.mem_map.mpr
        ⟨(s, (pair_strings (inconsistent_pairs subtypes)).count s),
         (most_common_perm (counter_items _)).mem_iff.mpr hitems, rfl⟩
  · rw [hout]
    have hnodupitems :
        (counter_items (pair_strings (inconsistent_pairs subtypes))).Nodup := by
      refine List.Nodup.map ?_ (nodup_dedup_first_aux _ [])
      intro a b hab
      exact congrArg Prod.fst hab
    have hnodupsorted :
        (most_common (counter_items (pair_strings (inconsistent_pairs subtypes)))).Nodup :=
      (most_common_perm (counter_items _)).nodup_iff.mpr hnodupitems
    refine List.Nodup.map_on ?_ hnodupsorted
    intro x hx y hy hxy
    obtain ⟨a, b⟩ := x
    obtain ⟨c, d⟩ := y
    have h1 := (hmemitems (a, b) hx).2
    have h2 := (hmemitems (c, d) hy).2
    simp only at hxy h1 h2
    subst hxy
    rw [h1, h2]
  · rw [hout]
    rw [List.pairwise_map]
    refine List.Pairwise.imp_of_mem ?_
      (pairwise_most_common (counter_items (pair_strings (inconsistent_pairs subtypes))))
    intro p q hp hq hpq
    rw [← (hmemitems p hp).2, ← (hmemitems q hq).2]
    exact hpq

end BioHansel

namespace BioHansel

/-- Claim C5 as stated is false on the code: on `[[1,2],[1,2],[1,3]]` the
pair loop records two disagreeing pairs (indices (0,2) and (1,2)), not one,
so both flattened strings occur with count 2, not 1. -/
theorem C5_counterexample :
    ¬ ((inconsistent_pairs [[1, 2], [1, 2], [1, 3]]).length = 1 ∧
       (pair_strings (inconsistent_pairs [[1, 2], [1, 2], [1, 3]])).count "1.2" = 1 ∧
       (pair_strings (inconsistent_pairs [[1, 2], [1, 2], [1, 3]])).count "1.3" = 1) := by
  decide

/-- Claim C5 amended: on `[[1,2],[1,2],[1,3]]` the result is
`["1.2", "1.3"]` — both strings included, ordered by descending frequency —
with exactly two disagreeing pairs recorded and both strings appearing with
occurrence count 2. -/
theorem C5_amended_example :
    find_inconsistent_subtypes [[1, 2], [1, 2], [1, 3]] = ["1.2", "1.3"] ∧
    (inconsistent_pairs [[1, 2], [1, 2], [1, 3]]).length = 2 ∧
    (pair_strings (inconsistent_pairs [[1, 2], [1, 2], [1, 3]])).count "1.2" = 2 ∧
    (pair_strings (inconsistent_pairs [[1, 2], [1, 2], [1, 3]])).count "1.3" = 2 := by
  decide

/-- Under pairwise agreement no pair is ever recorded. -/
theorem inconsistent_pairs_eq_nil_of_pairwise (l : List (List Int))
    (h : l.Pairwise (fun a b => compare_subtypes a b = true)) :
    inconsistent_pairs l = [] := by
  induction l with
  | nil => rfl
  | cons a rest ih =>
    rw [List.pairwise_cons] at h
    simp only [inconsistent_pairs]
    have hf : rest.filter (fun b => !compare_subtypes a b) = [] :=
      List.filter_eq_nil_iff.mpr (fun b hb => by simp [h.1 b hb])
    rw [hf, ih h.2]
    rfl

/-- Claim C6: `find_inconsistent_subtypes` returns the empty list on an
empty input, on a single path, and whenever all input paths pairwise agree
under the overlap-only comparator. -/
theorem C6_empty_result :
    find_inconsistent_subtypes [] = [] ∧
    (∀ a : List Int, find_inconsistent_subtypes [a] = []) ∧
    ∀ subtypes : List (List Int),
      subtypes.Pairwise (fun a b => compare_subtypes a b = true) →
      find_inconsistent_subtypes subtypes = [] := by
  refine ⟨rfl, fun a => rfl, fun subtypes h => ?_⟩
  rw [find_inconsistent_subtypes, inconsistent_pairs_eq_nil_of_pairwise subtypes h]
  rfl

/-- Witness for C6 on a concrete pairwise-agreeing input. -/
theorem C6_empty_result_witness :
    find_inconsistent_subtypes [[1, 2], [1, 2], [1]] = [] :=
  C6_empty_result.2.2 [[1, 2], [1, 2], [1]] (by decide)

end BioHansel
